import Mathlib

/-!
Verification of the OneLeaf knowledge-base core
(`src-tauri/src/ai/vector_db.rs` and `src-tauri/src/ai/knowledge_base.rs`).

Modelling conventions:
* `f32` values are modelled as exact rationals `ℚ`.
* `f32::sqrt` is modelled as an abstract function `sqrt : ℚ → ℚ` together with the
  property `SqrtOk`: on nonnegative inputs the result is nonnegative and is zero
  exactly on zero.  IEEE-754 single-precision square root satisfies both.
* Rust `String` / `&str` is Lean `String`; Rust `char` (a Unicode scalar value) is
  Lean `Char`, with `Char.toNat` playing the role of `ch as usize`.
* The two SQLite tables of `VectorDb` are modelled as association lists keyed by the
  document id; `INSERT OR REPLACE` is an upsert, `DELETE ... WHERE id = ?` is a filter.
* Filesystem side effects (source-file backup copies) never touch the two durable
  tables and are outside the modelled state.
-/

/-- `a.iter().zip(b.iter()).map(|(x, y)| x * y).sum()` (vector_db.rs:208). -/
def dotProduct (a b : List ℚ) : ℚ :=
  (List.zipWith (fun x y => x * y) a b).sum

/-- `v.iter().map(|x| x * x).sum::<f32>()` — the squared Euclidean norm, the argument
of `sqrt` in vector_db.rs:209-210 and knowledge_base.rs:385. -/
def sumSquares (v : List ℚ) : ℚ :=
  (v.map (fun x => x * x)).sum

/-- The properties of `f32::sqrt` the code relies on, stated for the abstract model
of square root: on nonnegative inputs the result is nonnegative, and it is zero
exactly when the input is zero. -/
def SqrtOk (sqrt : ℚ → ℚ) : Prop :=
  ∀ x : ℚ, 0 ≤ x → 0 ≤ sqrt x ∧ (sqrt x = 0 ↔ x = 0)

/-- `VectorDb::cosine_similarity` (vector_db.rs:204-215): mismatched lengths give
`0.0`; a computed zero norm on either side gives `0.0`; otherwise the dot product
divided by the product of the norms. -/
def cosine_similarity (sqrt : ℚ → ℚ) (a b : List ℚ) : ℚ :=
  if a.length ≠ b.length then 0
  else
    let dot_product := dotProduct a b
    let norm_a := sqrt (sumSquares a)
    let norm_b := sqrt (sumSquares b)
    if norm_a = 0 ∨ norm_b = 0 then 0
    else dot_product / (norm_a * norm_b)

/-- `embedding[idx] += 1.0` on a vector of fixed length (knowledge_base.rs:382):
add `1` to the entry at index `i`, leaving the list unchanged when `i` is out of
range (in the source `idx` is always in range because it is reduced mod the
dimension). -/
def incAt : List ℚ → Nat → List ℚ
  | [], _ => []
  | x :: xs, 0 => (x + 1) :: xs
  | x :: xs, n + 1 => x :: incAt xs n

/-- The accumulation loop of `SimpleEmbedder::embed` (knowledge_base.rs:380-383):
`for (i, ch) in chars.iter().enumerate() { embedding[(ch as usize + i) % dim] += 1.0 }`,
with `i` the explicit position counter. -/
def bumpAll (dimension : Nat) : Nat → List Char → List ℚ → List ℚ
  | _, [], acc => acc
  | i, c :: cs, acc => bumpAll dimension (i + 1) cs (incAt acc ((c.toNat + i) % dimension))

/-- The un-normalized count vector of `SimpleEmbedder::embed`: start from
`vec![0.0; dimension]` and run the accumulation loop over the characters. -/
def rawCounts (dimension : Nat) (text : String) : List ℚ :=
  bumpAll dimension 0 text.toList (List.replicate dimension 0)

/-- `SimpleEmbedder::embed` (knowledge_base.rs:376-392): accumulate character
counts, then divide each component by `norm = sqrt(sum of squares)` when
`norm > 0.0`, and leave the vector untouched otherwise. -/
def simpleEmbed (sqrt : ℚ → ℚ) (dimension : Nat) (text : String) : List ℚ :=
  let embedding := rawCounts dimension text
  let norm := sqrt (sumSquares embedding)
  if 0 < norm then embedding.map (fun x => x / norm) else embedding

/-- Modelled from the spec (§4.1 fallback variant wording), accumulation clause:
"for each character in the input (by Unicode scalar, not byte), compute an index
as `(scalar_value + position) mod dimension` and increment that slot by 1.0". -/
def specBump (dimension : Nat) : Nat → List Char → List ℚ → List ℚ
  | _, [], v => v
  | position, c :: cs, v =>
      specBump dimension (position + 1) cs (incAt v ((c.toNat + position) % dimension))

/-- Modelled from the spec (§4.1 fallback variant wording): "start with a zero
vector of the configured dimension", run the accumulation clause, then
"L2-normalize the vector (divide every component by the Euclidean norm; if the
norm is zero, leave the vector as all zeros)". -/
def specFallbackEmbed (sqrt : ℚ → ℚ) (dimension : Nat) (text : String) : List ℚ :=
  let v := specBump dimension 0 text.toList (List.replicate dimension 0)
  let norm := sqrt (sumSquares v)
  if norm = 0 then v else v.map (fun x => x / norm)

/-- The UTF-8 byte count of a character list: `Char.utf8Size` per character.
This models Rust `String::len` (a byte count, not a character count). -/
def bytesOf : List Char → Nat
  | [] => 0
  | c :: cs => c.utf8Size + bytesOf cs

/-- Rust `doc.content.len()`: the UTF-8 byte length of the content. -/
def utf8Len (s : String) : Nat :=
  bytesOf s.toList

/-- The snippet construction of `KnowledgeBase::search` (knowledge_base.rs:328-333):
when the content's BYTE length exceeds 300, slice the content at the byte index of
its 300th character (or at the end when there are fewer than 300 characters) and
append `"..."`; otherwise return the content unchanged.  Slicing at
`char_indices().nth(300)` keeps exactly the first 300 characters, so it is modelled
as `take 300` on the character list. -/
def snippetOf (content : String) : String :=
  if 300 < utf8Len content then
    String.mk (content.toList.take 300) ++ "..."
  else content

/-- A row of the `documents` table and equally an element of the in-memory
document list (`Document` in knowledge_base.rs:32-44): both carry exactly the
fields (id, name, category, content, source_path, backup_path, file_type,
created_at). -/
structure Document where
  id : String
  name : String
  category : String
  content : String
  source_path : Option String
  backup_path : Option String
  file_type : String
  created_at : String
deriving DecidableEq, Repr

/-- The two durable SQLite tables of `VectorDb` (vector_db.rs:29-52):
`document_vectors` keyed by document id (the stored blob plus dimension decode
round-trips to the inserted vector, so rows are modelled as id/vector pairs) and
`documents` keyed by document id. -/
structure VectorDbState where
  vectors : List (String × List ℚ)
  documents : List Document
deriving DecidableEq, Repr

/-- `VectorDb::insert` (vector_db.rs:114-127): `INSERT OR REPLACE` on the primary
key `document_id` — any row with the same id is replaced. -/
def upsertVec (tbl : List (String × List ℚ)) (id : String) (v : List ℚ) :
    List (String × List ℚ) :=
  tbl.filter (fun r => r.1 ≠ id) ++ [(id, v)]

/-- `VectorDb::save_document` (vector_db.rs:70-80): `INSERT OR REPLACE` on the
primary key `id`. -/
def upsertDoc (tbl : List Document) (d : Document) : List Document :=
  tbl.filter (fun r => r.id ≠ d.id) ++ [d]

/-- `VectorDb::delete` (vector_db.rs:166-173): `DELETE FROM document_vectors
WHERE document_id = ?1`; succeeds whether or not a row matches. -/
def deleteVec (tbl : List (String × List ℚ)) (id : String) : List (String × List ℚ) :=
  tbl.filter (fun r => r.1 ≠ id)

/-- `VectorDb::delete_document` (vector_db.rs:107-111): `DELETE FROM documents
WHERE id = ?1`; succeeds whether or not a row matches. -/
def deleteDocRow (tbl : List Document) (id : String) : List Document :=
  tbl.filter (fun r => r.id ≠ id)

/-- The comparator of `VectorDb::search` (vector_db.rs:161):
`b.1.partial_cmp(&a.1).unwrap_or(Equal)` — a descending order on the similarity
component (over exact rationals the comparison is never undefined). -/
def simGe (a b : String × ℚ) : Bool :=
  decide (b.2 ≤ a.2)

/-- `VectorDb::search` (vector_db.rs:130-163): compute the cosine similarity of
the query against every stored row, sort descending by similarity with Rust's
stable `sort_by`, and keep the first `limit` entries. -/
def vdbSearch (sqrt : ℚ → ℚ) (tbl : List (String × List ℚ)) (query : List ℚ)
    (limit : Nat) : List (String × ℚ) :=
  let results := tbl.map (fun r => (r.1, cosine_similarity sqrt query r.2))
  (results.mergeSort simGe).take limit

/-- The error taxonomy of the facade (`KbError`, knowledge_base.rs:12-30), the
variants reachable in the modelled operations. -/
inductive KbError where
  | documentNotFound (msg : String)
  | parseFailed (msg : String)
  | embeddingFailed (msg : String)
  | databaseError (msg : String)
deriving DecidableEq, Repr

/-- What `add_document` reads from a `path` argument: the file name, the
lowercased extension, the display form of the path, whether the file exists on
disk, and the outcome `parse_document` would produce for it.  The filesystem and
the format parsers are external to the model, so these arrive as givens. -/
structure PathInput where
  fileName : String
  ext : String
  display : String
  fileExists : Bool
  parse : Except KbError String
deriving Repr

/-- The state owned by `KnowledgeBase` (knowledge_base.rs:76-80): the durable
`VectorDb` tables plus the in-memory document cache `documents`. -/
structure KbState where
  db : VectorDbState
  cache : List Document
deriving DecidableEq, Repr

/-- The emptiness gate of `KnowledgeBase::parse_docx` (knowledge_base.rs:289-293):
after XML text extraction, `text.trim().is_empty()` is a parse failure, anything
else is returned verbatim (untrimmed).  `trim().is_empty()` holds exactly when
every character of the text is whitespace, which is how the condition is
modelled. -/
def docxEmptyGate (text : String) : Except KbError String :=
  if text.toList.all Char.isWhitespace then
    Except.error (KbError.parseFailed "文档内容为空")
  else Except.ok text

/-- The emptiness gate of `KnowledgeBase::parse_pdf` (knowledge_base.rs:307-316):
`text.trim().is_empty()` extracted text is a parse failure, anything else is
returned verbatim, with the trim-emptiness condition modelled as in
`docxEmptyGate`. -/
def pdfEmptyGate (text : String) : Except KbError String :=
  if text.toList.all Char.isWhitespace then
    Except.error (KbError.parseFailed "PDF 文档内容为空")
  else Except.ok text

/-- `KnowledgeBase::parse_txt` (knowledge_base.rs:261-264): the file contents are
returned verbatim — there is no emptiness check on this path. -/
def parseTxt (fileContents : Except KbError String) : Except KbError String :=
  fileContents

/-- The content/name/source-path/file-type resolution block of
`KnowledgeBase::add_document` (knowledge_base.rs:157-171): inline content wins
over parsing, a missing file with no inline content is `DocumentNotFound`, pure
inline content gets a synthetic name and an `mp4`/`txt` file-type tag, and
neither path nor content is a parse failure. -/
def resolveContent (path : Option PathInput) (content : Option String)
    (category : String) : Except KbError (String × String × Option String × String) :=
  match path with
  | some p =>
      if !p.fileExists && content.isNone then
        Except.error (KbError.documentNotFound p.display)
      else
        match content with
        | some c => Except.ok (c, p.fileName, some p.display, p.ext)
        | none =>
            match p.parse with
            | Except.ok c => Except.ok (c, p.fileName, some p.display, p.ext)
            | Except.error e => Except.error e
  | none =>
      match content with
      | some c =>
          Except.ok (c, "视频转写文本", none,
            if category = "video-transcript" then "mp4" else "txt")
      | none => Except.error (KbError.parseFailed "必须提供文件路径或内容")

/-- `KnowledgeBase::add_document` (knowledge_base.rs:151-237) as a state
transition.  `embed` abstracts `self.embedder.embed`; `docId` and `createdAt`
stand for the freshly generated UUID and timestamp; `backupPath` stands for the
backup-file path the (filesystem-only, best-effort) backup step computes.  The
result pairs the Rust return value with the durable-plus-cache state after the
call; on the early-return error paths the state is the input state, because the
first table write (`vector_db.insert`) happens only after content resolution and
embedding both succeed. -/
def add_document (embed : String → Except KbError (List ℚ))
    (docId createdAt : String) (backupPath : Option String)
    (path : Option PathInput) (content : Option String) (category : String)
    (s : KbState) : Except KbError Document × KbState :=
  match resolveContent path content category with
  | Except.error e => (Except.error e, s)
  | Except.ok (final_content, name, source_path, file_type) =>
      match embed final_content with
      | Except.error e => (Except.error e, s)
      | Except.ok embedding =>
          let doc : Document :=
            { id := docId, name := name, category := category,
              content := final_content, source_path := source_path,
              backup_path := backupPath, file_type := file_type,
              created_at := createdAt }
          let db' : VectorDbState :=
            { vectors := upsertVec s.db.vectors docId embedding,
              documents := upsertDoc s.db.documents doc }
          (Except.ok doc, { db := db', cache := s.cache ++ [doc] })

/-- `SearchResult` (knowledge_base.rs:46-51). -/
structure SearchResult where
  document : Document
  relevance : ℚ
  snippet : String
deriving DecidableEq, Repr

/-- `KnowledgeBase::search` (knowledge_base.rs:319-344): embed the query, run the
vector search, join each returned id against the in-memory cache (first match by
id; missing ids are dropped), and attach the snippet. -/
def kbSearch (embed : String → Except KbError (List ℚ)) (sqrt : ℚ → ℚ)
    (query : String) (limit : Nat) (s : KbState) : Except KbError (List SearchResult) :=
  match embed query with
  | Except.error e => Except.error e
  | Except.ok query_embedding =>
      let similar_docs := vdbSearch sqrt s.db.vectors query_embedding limit
      Except.ok (similar_docs.filterMap (fun pr =>
        (s.cache.find? (fun d => d.id == pr.1)).map (fun doc =>
          { document := doc, relevance := pr.2, snippet := snippetOf doc.content })))

/-- `KnowledgeBase::delete_document` (knowledge_base.rs:347-352): delete the
vector row, delete the document row, drop the cache entries with that id; each
step succeeds whether or not the id is present. -/
def delete_document (id : String) (s : KbState) : Except KbError Unit × KbState :=
  (Except.ok (),
    { db := { vectors := deleteVec s.db.vectors id,
              documents := deleteDocRow s.db.documents id },
      cache := s.cache.filter (fun d => d.id ≠ id) })

/-- `KnowledgeBase::clear_all` (knowledge_base.rs:355-359) together with
`VectorDb::clear_all` (vector_db.rs:176-181): delete every row of both tables and
clear the in-memory cache. -/
def clear_all (_s : KbState) : Except KbError Unit × KbState :=
  (Except.ok (), { db := { vectors := [], documents := [] }, cache := [] })

/-- `KnowledgeBase::list_documents` (knowledge_base.rs:362-364): a snapshot of the
in-memory cache. -/
def list_documents (s : KbState) : List Document :=
  s.cache

theorem sumSquares_nonneg (v : List ℚ) : 0 ≤ sumSquares v := by
  induction v with
  | nil => simp [sumSquares]
  | cons x xs ih =>
      simp only [sumSquares, List.map_cons, List.sum_cons]
      have hx : 0 ≤ x * x := mul_self_nonneg x
      have := ih
      simp only [sumSquares] at this
      linarith

/-- C3: `cosine_similarity` is total (it is a Lean function), returns exactly `0`
on a length mismatch, exactly `0` when either operand has zero Euclidean norm
(over exact arithmetic, zero Euclidean norm is exactly `sumSquares = 0`), and
otherwise the dot product over the product of the norms. -/
theorem cosine_similarity_spec (sqrt : ℚ → ℚ) (hs : SqrtOk sqrt) (a b : List ℚ) :
    (a.length ≠ b.length → cosine_similarity sqrt a b = 0) ∧
    (sumSquares a = 0 ∨ sumSquares b = 0 → cosine_similarity sqrt a b = 0) ∧
    (a.length = b.length → sumSquares a ≠ 0 → sumSquares b ≠ 0 →
      cosine_similarity sqrt a b =
        dotProduct a b / (sqrt (sumSquares a) * sqrt (sumSquares b))) := by
  refine ⟨fun hne => ?_, fun hzero => ?_, fun hlen hna hnb => ?_⟩
  · simp [cosine_similarity, hne]
  · rcases Decidable.em (a.length = b.length) with hlen | hlen
    · have hz : sqrt (sumSquares a) = 0 ∨ sqrt (sumSquares b) = 0 := by
        rcases hzero with h | h
        · exact Or.inl (((hs _ (sumSquares_nonneg a)).2).mpr h)
        · exact Or.inr (((hs _ (sumSquares_nonneg b)).2).mpr h)
      simp [cosine_similarity, hlen, hz]
    · simp [cosine_similarity, hlen]
  · have hza : sqrt (sumSquares a) ≠ 0 := by
      intro h
      exact hna (((hs _ (sumSquares_nonneg a)).2).mp h)
    have hzb : sqrt (sumSquares b) ≠ 0 := by
      intro h
      exact hnb (((hs _ (sumSquares_nonneg b)).2).mp h)
    simp [cosine_similarity, hlen, hza, hzb]

/-- Witness for C3: the identity function is a valid square-root model on the
inputs used, and the three branches are exercised at concrete vectors. -/
theorem cosine_similarity_spec_witness :
    SqrtOk (fun x : ℚ => x) ∧
    cosine_similarity (fun x : ℚ => x) [1] [1, 2] = 0 ∧
    cosine_similarity (fun x : ℚ => x) [0, 0] [1, 1] = 0 ∧
    cosine_similarity (fun x : ℚ => x) [1, 0] [0, 1] =
      dotProduct [1, 0] [0, 1] / ((fun x : ℚ => x) (sumSquares [(1 : ℚ), 0]) *
        (fun x : ℚ => x) (sumSquares [(0 : ℚ), 1])) := by
  have hok : SqrtOk (fun x : ℚ => x) := fun x hx => ⟨hx, Iff.rfl⟩
  refine ⟨hok, ?_, ?_, ?_⟩
  · exact (cosine_similarity_spec (fun x : ℚ => x) hok [1] [1, 2]).1 (by decide)
  · exact (cosine_similarity_spec (fun x : ℚ => x) hok [0, 0] [1, 1]).2.1
      (Or.inl (by norm_num [sumSquares]))
  · exact (cosine_similarity_spec (fun x : ℚ => x) hok [1, 0] [0, 1]).2.2
      (by decide) (by norm_num [sumSquares]) (by norm_num [sumSquares])

theorem specBump_eq_bumpAll (dimension : Nat) (cs : List Char) :
    ∀ (i : Nat) (acc : List ℚ), specBump dimension i cs acc = bumpAll dimension i cs acc := by
  induction cs with
  | nil => intro i acc; rfl
  | cons c cs ih => intro i acc; simp only [specBump, bumpAll]; exact ih _ _

/-- C6: under the `f32::sqrt` model properties, the fallback embedder computes
exactly the vector the specification describes: zero vector, bump slot
`(scalar + position) mod dimension` per character, then L2-normalize, leaving a
zero-norm vector all zeros. -/
theorem simpleEmbed_eq_spec (sqrt : ℚ → ℚ) (hs : SqrtOk sqrt) (dimension : Nat)
    (text : String) : simpleEmbed sqrt dimension text = specFallbackEmbed sqrt dimension text := by
  unfold simpleEmbed specFallbackEmbed rawCounts
  rw [specBump_eq_bumpAll]
  set v := bumpAll dimension 0 text.toList (List.replicate dimension 0) with hv
  have hnn : 0 ≤ sqrt (sumSquares v) := (hs _ (sumSquares_nonneg v)).1
  rcases Decidable.em (sqrt (sumSquares v) = 0) with hz | hz
  · simp [hz]
  · have hpos : 0 < sqrt (sumSquares v) := lt_of_le_of_ne hnn (Ne.symm hz)
    simp [hz, hpos]

/-- Witness for C6 at a concrete square-root model, dimension and input. -/
theorem simpleEmbed_eq_spec_witness :
    SqrtOk (fun x : ℚ => x) ∧
    simpleEmbed (fun x : ℚ => x) 3 "ab" = specFallbackEmbed (fun x : ℚ => x) 3 "ab" := by
  have hok : SqrtOk (fun x : ℚ => x) := fun x hx => ⟨hx, Iff.rfl⟩
  exact ⟨hok, simpleEmbed_eq_spec (fun x : ℚ => x) hok 3 "ab"⟩

theorem incAt_length (v : List ℚ) : ∀ n : Nat, (incAt v n).length = v.length := by
  induction v with
  | nil => intro n; rfl
  | cons x xs ih =>
      intro n
      cases n with
      | zero => rfl
      | succ m => simpa [incAt] using ih m

theorem incAt_sum (v : List ℚ) : ∀ n : Nat, n < v.length → (incAt v n).sum = v.sum + 1 := by
  induction v with
  | nil => intro n h; simp at h
  | cons x xs ih =>
      intro n h
      cases n with
      | zero => simp [incAt]; ring
      | succ m =>
          have hm : m < xs.length := by simpa using h
          simp only [incAt, List.sum_cons, ih m hm]
          ring

theorem bumpAll_length (dimension : Nat) (cs : List Char) :
    ∀ (i : Nat) (acc : List ℚ), (bumpAll dimension i cs acc).length = acc.length := by
  induction cs with
  | nil => intro i acc; rfl
  | cons c cs ih =>
      intro i acc
      simp only [bumpAll]
      rw [ih, incAt_length]

theorem bumpAll_sum (dimension : Nat) (hd : 0 < dimension) (cs : List Char) :
    ∀ (i : Nat) (acc : List ℚ), acc.length = dimension →
      (bumpAll dimension i cs acc).sum = acc.sum + cs.length := by
  induction cs with
  | nil => intro i acc _; simp [bumpAll]
  | cons c cs ih =>
      intro i acc hlen
      simp only [bumpAll]
      have hidx : (c.toNat + i) % dimension < acc.length := by
        rw [hlen]; exact Nat.mod_lt _ hd
      have hlen2 : (incAt acc ((c.toNat + i) % dimension)).length = dimension := by
        rw [incAt_length]; exact hlen
      rw [ih _ _ hlen2, incAt_sum _ _ hidx]
      simp only [List.length_cons]
      push_cast
      ring

theorem sum_eq_zero_of_sumSquares_eq_zero (v : List ℚ) (h : sumSquares v = 0) : v.sum = 0 := by
  induction v with
  | nil => rfl
  | cons x xs ih =>
      simp only [sumSquares, List.map_cons, List.sum_cons] at h
      have hx : 0 ≤ x * x := mul_self_nonneg x
      have hxs : 0 ≤ sumSquares xs := sumSquares_nonneg xs
      simp only [sumSquares] at hxs
      have hx0 : x * x = 0 := by linarith
      have hxz : x = 0 := mul_self_eq_zero.mp hx0
      have hrest : sumSquares xs = 0 := by simp only [sumSquares]; linarith
      simp [hxz, ih hrest]

theorem sumSquares_map_div (v : List ℚ) (n : ℚ) :
    sumSquares (v.map (fun x => x / n)) = sumSquares v / (n * n) := by
  induction v with
  | nil => simp [sumSquares]
  | cons x xs ih =>
      simp only [sumSquares, List.map_cons, List.sum_cons] at ih ⊢
      rw [ih]
      field_simp

theorem rawCounts_sum (dimension : Nat) (hd : 0 < dimension) (text : String) :
    (rawCounts dimension text).sum = text.toList.length := by
  unfold rawCounts
  rw [bumpAll_sum dimension hd _ _ _ (by simp)]
  simp

theorem rawCounts_sumSquares_ne_zero (dimension : Nat) (hd : 0 < dimension)
    (text : String) (ht : text.toList ≠ []) : sumSquares (rawCounts dimension text) ≠ 0 := by
  intro h
  have hsum := sum_eq_zero_of_sumSquares_eq_zero _ h
  rw [rawCounts_sum dimension hd text] at hsum
  have : text.toList.length = 0 := by exact_mod_cast hsum
  exact ht (List.length_eq_zero.mp this)

/-- C9: the fallback embedder is deterministic (it is a pure function of its
input: two calls on the same text are the same term), and for positive dimension,
non-empty text and a square root exact at the point it is used, the output has
squared Euclidean norm exactly `1` (unit L2 norm). -/
theorem simpleEmbed_deterministic_unit_norm (sqrt : ℚ → ℚ) (dimension : Nat)
    (text : String) (hs : SqrtOk sqrt) (hd : 0 < dimension) (ht : text.toList ≠ [])
    (hexact : sqrt (sumSquares (rawCounts dimension text)) *
      sqrt (sumSquares (rawCounts dimension text)) = sumSquares (rawCounts dimension text)) :
    simpleEmbed sqrt dimension text = simpleEmbed sqrt dimension text ∧
    sumSquares (simpleEmbed sqrt dimension text) = 1 := by
  refine ⟨rfl, ?_⟩
  set s := sumSquares (rawCounts dimension text) with hsdef
  have hsne : s ≠ 0 := rawCounts_sumSquares_ne_zero dimension hd text ht
  have hnorm_ne : sqrt s ≠ 0 := by
    intro h
    rw [h, mul_zero] at hexact
    exact hsne hexact.symm
  have hnorm_pos : 0 < sqrt s :=
    lt_of_le_of_ne (hs s (hsdef ▸ sumSquares_nonneg _)).1 (Ne.symm hnorm_ne)
  show sumSquares
      (if 0 < sqrt s then (rawCounts dimension text).map (fun x => x / sqrt s)
       else rawCounts dimension text) = 1
  rw [if_pos hnorm_pos, sumSquares_map_div, ← hsdef, hexact, div_self hsne]

/-- Witness for C9 at the identity square-root model, dimension 3 and text "a":
the raw count vector is `[0, 1, 0]` with sum of squares `1`, on which the
identity is an exact square root. -/
theorem simpleEmbed_deterministic_unit_norm_witness :
    SqrtOk (fun x : ℚ => x) ∧ 0 < 3 ∧ ("a" : String).toList ≠ [] ∧
    (fun x : ℚ => x) (sumSquares (rawCounts 3 "a")) *
      (fun x : ℚ => x) (sumSquares (rawCounts 3 "a")) = sumSquares (rawCounts 3 "a") ∧
    sumSquares (simpleEmbed (fun x : ℚ => x) 3 "a") = 1 := by
  have hok : SqrtOk (fun x : ℚ => x) := fun x hx => ⟨hx, Iff.rfl⟩
  have hcounts : rawCounts 3 "a" = [0, 1, 0] := by
    show bumpAll 3 0 ['a'] (List.replicate 3 0) = [0, 1, 0]
    norm_num [bumpAll, incAt, List.replicate]
  have hss : sumSquares (rawCounts 3 "a") = 1 := by
    rw [hcounts]; norm_num [sumSquares]
  have hexact : (fun x : ℚ => x) (sumSquares (rawCounts 3 "a")) *
      (fun x : ℚ => x) (sumSquares (rawCounts 3 "a")) = sumSquares (rawCounts 3 "a") := by
    simp only [hss]; norm_num
  refine ⟨hok, by decide, by decide, hexact, ?_⟩
  exact (simpleEmbed_deterministic_unit_norm (fun x : ℚ => x) 3 "a" hok
    (by decide) (by decide) hexact).2

theorem length_le_bytesOf (l : List Char) : l.length ≤ bytesOf l := by
  induction l with
  | nil => simp [bytesOf]
  | cons c cs ih =>
      have hc : 1 ≤ c.utf8Size := Char.utf8Size_pos c
      simp only [bytesOf, List.length_cons]
      omega

/-- C2 counterexample: 101 copies of the three-byte character `'中'` form a content
of 101 Unicode scalar values (≤ 300) whose snippet is NOT the full content: the
byte length 303 exceeds 300, so the code appends an ellipsis to the whole content. -/
theorem snippet_not_full_on_short_multibyte :
    (String.mk (List.replicate 101 '中')).toList.length ≤ 300 ∧
    snippetOf (String.mk (List.replicate 101 '中')) ≠ String.mk (List.replicate 101 '中') := by
  constructor
  · decide
  · decide

/-- C2 amended: the truncation decision is by UTF-8 byte length, not scalar count.
For content of more than 300 scalar values the snippet is exactly the first 300
scalar values followed by `"..."` (a cut at a scalar boundary by construction);
for content of at most 300 BYTES the snippet is the full content with no ellipsis;
content of at most 300 scalar values but more than 300 bytes gets the full content
followed by `"..."`. -/
theorem snippetOf_spec (content : String) :
    (300 < content.toList.length →
      snippetOf content = String.mk (content.toList.take 300) ++ "...") ∧
    (utf8Len content ≤ 300 → snippetOf content = content) ∧
    (300 < utf8Len content → content.toList.length ≤ 300 →
      snippetOf content = content ++ "...") := by
  refine ⟨fun hlen => ?_, fun hbytes => ?_, fun hbytes hlen => ?_⟩
  · have hb : 300 < utf8Len content :=
      lt_of_lt_of_le hlen (length_le_bytesOf content.toList)
    simp [snippetOf, hb]
  · simp [snippetOf, Nat.not_lt.mpr hbytes]
  · have htake : content.toList.take 300 = content.toList :=
      List.take_of_length_le hlen
    unfold snippetOf
    rw [if_pos hbytes]
    show String.mk (content.toList.take 300) ++ "..." = content ++ "..."
    rw [htake]
    rfl

/-- Witness for C2 amended: 301 ASCII characters exercise the long branch, a short
ASCII string the unchanged branch, and 101 three-byte characters the third branch. -/
theorem snippetOf_spec_witness :
    (300 < (String.mk (List.replicate 301 'a')).toList.length ∧
      snippetOf (String.mk (List.replicate 301 'a')) =
        String.mk ((String.mk (List.replicate 301 'a')).toList.take 300) ++ "...") ∧
    (utf8Len "hello" ≤ 300 ∧ snippetOf "hello" = "hello") ∧
    (300 < utf8Len (String.mk (List.replicate 101 '中')) ∧
      (String.mk (List.replicate 101 '中')).toList.length ≤ 300 ∧
      snippetOf (String.mk (List.replicate 101 '中')) =
        String.mk (List.replicate 101 '中') ++ "...") := by
  have h301 : 300 < (String.mk (List.replicate 301 'a')).toList.length := by
    show 300 < (List.replicate 301 'a').length
    rw [List.length_replicate]
    norm_num
  refine ⟨⟨h301, ?_⟩, ⟨by decide, ?_⟩, ⟨by decide, by decide, ?_⟩⟩
  · exact (snippetOf_spec (String.mk (List.replicate 301 'a'))).1 h301
  · exact (snippetOf_spec "hello").2.1 (by decide)
  · exact (snippetOf_spec (String.mk (List.replicate 101 '中'))).2.2 (by decide) (by decide)

/-- C4: `VectorDb::search` scores all `N` stored vectors by cosine similarity
against the query, and its output is the `min(limit, N)`-prefix of a
descending-by-similarity ordering of those `N` scored pairs. -/
theorem vdbSearch_spec (sqrt : ℚ → ℚ) (tbl : List (String × List ℚ))
    (query : List ℚ) (limit : Nat) :
    ∃ sorted : List (String × ℚ),
      sorted.Perm (tbl.map (fun r => (r.1, cosine_similarity sqrt query r.2))) ∧
      sorted.Pairwise (fun a b => b.2 ≤ a.2) ∧
      vdbSearch sqrt tbl query limit = sorted.take limit ∧
      (vdbSearch sqrt tbl query limit).length = min limit tbl.length := by
  have htrans : ∀ a b c : String × ℚ,
      simGe a b = true → simGe b c = true → simGe a c = true := by
    intro a b c hab hbc
    simp only [simGe, decide_eq_true_eq] at hab hbc ⊢
    exact le_trans hbc hab
  have htotal : ∀ a b : String × ℚ, (simGe a b || simGe b a) = true := by
    intro a b
    simp only [simGe, Bool.or_eq_true, decide_eq_true_eq]
    exact le_total b.2 a.2
  have hperm :=
    List.mergeSort_perm (tbl.map (fun r => (r.1, cosine_similarity sqrt query r.2))) simGe
  have hsorted := List.sorted_mergeSort htrans htotal
    (tbl.map (fun r => (r.1, cosine_similarity sqrt query r.2)))
  have hpair : ((tbl.map (fun r => (r.1, cosine_similarity sqrt query r.2))).mergeSort
      simGe).Pairwise (fun a b => b.2 ≤ a.2) :=
    hsorted.imp (fun h => by simpa [simGe] using h)
  have hlen : (vdbSearch sqrt tbl query limit).length = min limit tbl.length := by
    unfold vdbSearch
    rw [List.length_take, List.length_mergeSort, List.length_map]
  have heq : vdbSearch sqrt tbl query limit =
      ((tbl.map (fun r => (r.1, cosine_similarity sqrt query r.2))).mergeSort
        simGe).take limit := rfl
  exact ⟨(tbl.map (fun r => (r.1, cosine_similarity sqrt query r.2))).mergeSort simGe,
    hperm, hpair, heq, hlen⟩

/-- C1 counterexample: `add_document` called with inline content `""` (no path)
succeeds and stores a document whose content is empty — in the vector table, the
document table and the cache — so ingestion does NOT reject empty-content
documents on the inline-content path. -/
theorem add_document_accepts_empty_content :
    add_document (fun _ => Except.ok []) "doc-1" "2025-01-01T00:00:00Z" none
      none (some "") "documents" ⟨⟨[], []⟩, []⟩ =
    (Except.ok ⟨"doc-1", "视频转写文本", "documents", "", none, none, "txt",
        "2025-01-01T00:00:00Z"⟩,
      ⟨⟨[("doc-1", [])],
        [⟨"doc-1", "视频转写文本", "documents", "", none, none, "txt",
            "2025-01-01T00:00:00Z"⟩]⟩,
        [⟨"doc-1", "视频转写文本", "documents", "", none, none, "txt",
            "2025-01-01T00:00:00Z"⟩]⟩) := rfl

/-- C1 amended: the emptiness rejection exists only in the docx and pdf parsers.
When the parse outcome of the given path went through the docx or pdf emptiness
gate and `add_document` succeeds, the stored content is non-empty (indeed not
all-whitespace); the txt/md and inline-content paths perform no such check (see
the counterexample). -/
theorem docxEmptyGate_ok (t : String) (ht : t.toList.all Char.isWhitespace = false) :
    docxEmptyGate t = Except.ok t := by
  unfold docxEmptyGate
  rw [ht]
  rfl

theorem docxEmptyGate_error (t : String) (ht : t.toList.all Char.isWhitespace = true) :
    docxEmptyGate t = Except.error (KbError.parseFailed "文档内容为空") := by
  unfold docxEmptyGate
  rw [ht]
  rfl

theorem pdfEmptyGate_ok (t : String) (ht : t.toList.all Char.isWhitespace = false) :
    pdfEmptyGate t = Except.ok t := by
  unfold pdfEmptyGate
  rw [ht]
  rfl

theorem pdfEmptyGate_error (t : String) (ht : t.toList.all Char.isWhitespace = true) :
    pdfEmptyGate t = Except.error (KbError.parseFailed "PDF 文档内容为空") := by
  unfold pdfEmptyGate
  rw [ht]
  rfl

theorem add_document_gated_content_nonempty
    (embed : String → Except KbError (List ℚ)) (docId createdAt : String)
    (backupPath : Option String) (p : PathInput) (t : String) (category : String)
    (s : KbState) (doc : Document) (s' : KbState)
    (hgate : p.parse = docxEmptyGate t ∨ p.parse = pdfEmptyGate t)
    (hok : add_document embed docId createdAt backupPath (some p) none category s =
      (Except.ok doc, s')) :
    doc.content ≠ "" ∧ doc.content.toList.all Char.isWhitespace = false := by
  by_cases hf : p.fileExists
  · cases hws : t.toList.all Char.isWhitespace with
    | true =>
        have hparse : ∃ e, p.parse = Except.error e := by
          rcases hgate with hg | hg
          · exact ⟨_, hg.trans (docxEmptyGate_error t hws)⟩
          · exact ⟨_, hg.trans (pdfEmptyGate_error t hws)⟩
        obtain ⟨e, hparse⟩ := hparse
        simp [add_document, resolveContent, hf, hparse] at hok
    | false =>
        have hparse : p.parse = Except.ok t := by
          rcases hgate with hg | hg
          · exact hg.trans (docxEmptyGate_ok t hws)
          · exact hg.trans (pdfEmptyGate_ok t hws)
        cases hemb : embed t with
        | error e =>
            simp [add_document, resolveContent, hf, hparse, hemb] at hok
        | ok v =>
            simp [add_document, resolveContent, hf, hparse, hemb, Prod.ext_iff] at hok
            obtain ⟨hdoc, -⟩ := hok
            refine ⟨?_, ?_⟩
            · rw [← hdoc]
              show t ≠ ""
              intro habs
              rw [habs] at hws
              exact absurd hws (by decide)
            · rw [← hdoc]
              exact hws
  · simp [add_document, resolveContent, hf] at hok

/-- Witness for C1 amended: a successful docx-gated ingestion of `"hello"` whose
stored content is non-empty. -/
theorem add_document_gated_content_nonempty_witness :
    add_document (fun _ => Except.ok []) "d1" "t1" none
      (some ⟨"a.docx", "docx", "a.docx", true, docxEmptyGate "hello"⟩) none "documents"
      ⟨⟨[], []⟩, []⟩ =
      (Except.ok ⟨"d1", "a.docx", "documents", "hello", some "a.docx", none, "docx", "t1"⟩,
        ⟨⟨[("d1", [])],
          [⟨"d1", "a.docx", "documents", "hello", some "a.docx", none, "docx", "t1"⟩]⟩,
          [⟨"d1", "a.docx", "documents", "hello", some "a.docx", none, "docx", "t1"⟩]⟩) ∧
    (⟨"d1", "a.docx", "documents", "hello", some "a.docx", none, "docx", "t1"⟩ :
      Document).content ≠ "" := by
  have hrun : add_document (fun _ => Except.ok []) "d1" "t1" none
      (some ⟨"a.docx", "docx", "a.docx", true, docxEmptyGate "hello"⟩) none "documents"
      ⟨⟨[], []⟩, []⟩ =
      (Except.ok ⟨"d1", "a.docx", "documents", "hello", some "a.docx", none, "docx", "t1"⟩,
        ⟨⟨[("d1", [])],
          [⟨"d1", "a.docx", "documents", "hello", some "a.docx", none, "docx", "t1"⟩]⟩,
          [⟨"d1", "a.docx", "documents", "hello", some "a.docx", none, "docx", "t1"⟩]⟩) := by
    rfl
  exact ⟨hrun,
    (add_document_gated_content_nonempty (fun _ => Except.ok []) "d1" "t1" none
      ⟨"a.docx", "docx", "a.docx", true, docxEmptyGate "hello"⟩ "hello" "documents"
      ⟨⟨[], []⟩, []⟩ _ _ (Or.inl rfl) hrun).1⟩

/-- C5: a call to `add_document` that fails (in this model the failure points are
content resolution — document-not-found, parse failure, missing input — and the
embedding step, all of which precede the first write to `document_vectors` or
`documents`) leaves the durable tables and the cache exactly as they were. -/
theorem add_document_no_partial_writes
    (embed : String → Except KbError (List ℚ)) (docId createdAt : String)
    (backupPath : Option String) (path : Option PathInput) (content : Option String)
    (category : String) (s : KbState)
    (hfail : (add_document embed docId createdAt backupPath path content category
      s).1.isOk = false) :
    (add_document embed docId createdAt backupPath path content category s).2 = s := by
  unfold add_document at hfail ⊢
  cases hres : resolveContent path content category with
  | error e => simp [hres]
  | ok r =>
      obtain ⟨fc, nm, sp, ft⟩ := r
      cases hemb : embed fc with
      | error e => simp [hres, hemb]
      | ok v => simp [hres, hemb, Except.isOk, Except.toBool] at hfail

/-- Witness for C5: an embedding failure on inline content leaves the state
untouched. -/
theorem add_document_no_partial_writes_witness :
    (add_document (fun _ => Except.error (KbError.embeddingFailed "x")) "d1" "t1" none
      none (some "hi") "documents" ⟨⟨[], []⟩, []⟩).1.isOk = false ∧
    (add_document (fun _ => Except.error (KbError.embeddingFailed "x")) "d1" "t1" none
      none (some "hi") "documents" ⟨⟨[], []⟩, []⟩).2 = ⟨⟨[], []⟩, []⟩ :=
  ⟨rfl, add_document_no_partial_writes _ "d1" "t1" none none (some "hi") "documents"
    ⟨⟨[], []⟩, []⟩ rfl⟩

/-- C7: `delete_document` never errors (also when the id is absent), and a second
delete of the same id returns no error and leaves the vector table, the document
table and the cache exactly as after the first call. -/
theorem delete_document_idempotent (id : String) (s : KbState) :
    (delete_document id s).1 = Except.ok () ∧
    delete_document id (delete_document id s).2 = delete_document id s := by
  refine ⟨rfl, ?_⟩
  unfold delete_document deleteVec deleteDocRow
  simp [List.filter_filter]

/-- C8: after `clear_all`, `list_documents` is empty and `search` (for every
query, limit and successfully embedded query vector) returns the empty list. -/
theorem clear_all_empties (embed : String → Except KbError (List ℚ)) (sqrt : ℚ → ℚ)
    (s : KbState) (q : String) (n : Nat) (qv : List ℚ)
    (hq : embed q = Except.ok qv) :
    list_documents (clear_all s).2 = [] ∧
    kbSearch embed sqrt q n (clear_all s).2 = Except.ok [] := by
  refine ⟨rfl, ?_⟩
  simp [kbSearch, hq, clear_all, vdbSearch]

/-- Witness for C8 at a concrete embedder, query and state. -/
theorem clear_all_empties_witness :
    (fun _ : String => (Except.ok ([] : List ℚ) : Except KbError (List ℚ))) "q" =
      Except.ok [] ∧
    list_documents (clear_all ⟨⟨[("a", [])], []⟩, []⟩).2 = [] ∧
    kbSearch (fun _ => Except.ok []) (fun x => x) "q" 5
      (clear_all ⟨⟨[("a", [])], []⟩, []⟩).2 = Except.ok [] :=
  ⟨rfl, clear_all_empties (fun _ => Except.ok []) (fun x => x)
    ⟨⟨[("a", [])], []⟩, []⟩ "q" 5 [] rfl⟩

theorem filter_key_filter_ne {α : Type} (key : α → String) (id k : String)
    (hk : k ≠ id) (l : List α) :
    (l.filter (fun r => key r ≠ id)).filter (fun r => key r = k) =
      l.filter (fun r => key r = k) := by
  rw [List.filter_filter]
  refine List.filter_congr ?_
  intro a _
  by_cases hak : key a = k
  · have haid : ¬(key a = id) := by rw [hak]; exact hk
    simp [hak, haid, hk]
  · simp [hak]

/-- C10: `delete_document id` preserves every cache entry with a different id,
in the same relative order (the new cache is a sublist of the old one and has
exactly the old members with other ids), and leaves every vector-table row and
document-table row keyed by a different id unchanged. -/
theorem delete_document_frame (id : String) (s : KbState) (d : Document)
    (k : String) (hd : d.id ≠ id) (hk : k ≠ id) :
    ((delete_document id s).2.cache).Sublist s.cache ∧
    (d ∈ (delete_document id s).2.cache ↔ d ∈ s.cache) ∧
    (delete_document id s).2.db.vectors.filter (fun r => r.1 = k) =
      s.db.vectors.filter (fun r => r.1 = k) ∧
    (delete_document id s).2.db.documents.filter (fun r => r.id = k) =
      s.db.documents.filter (fun r => r.id = k) := by
  refine ⟨List.filter_sublist _, ?_, ?_, ?_⟩
  · simp [delete_document, List.mem_filter, hd]
  · exact filter_key_filter_ne (fun r => r.1) id k hk s.db.vectors
  · exact filter_key_filter_ne (fun r => r.id) id k hk s.db.documents

/-- Witness for C10 at a concrete id, state, unaffected document and foreign key. -/
theorem delete_document_frame_witness :
    (⟨"b", "n", "c", "x", none, none, "txt", "t"⟩ : Document).id ≠ "a" ∧
    ("b" : String) ≠ "a" ∧
    (((delete_document "a" ⟨⟨[], []⟩, []⟩).2.cache).Sublist
        (⟨⟨[], []⟩, []⟩ : KbState).cache ∧
      ((⟨"b", "n", "c", "x", none, none, "txt", "t"⟩ : Document) ∈
          (delete_document "a" ⟨⟨[], []⟩, []⟩).2.cache ↔
        (⟨"b", "n", "c", "x", none, none, "txt", "t"⟩ : Document) ∈
          (⟨⟨[], []⟩, []⟩ : KbState).cache) ∧
      (delete_document "a" ⟨⟨[], []⟩, []⟩).2.db.vectors.filter (fun r => r.1 = "b") =
        (⟨⟨[], []⟩, []⟩ : KbState).db.vectors.filter (fun r => r.1 = "b") ∧
      (delete_document "a" ⟨⟨[], []⟩, []⟩).2.db.documents.filter (fun r => r.id = "b") =
        (⟨⟨[], []⟩, []⟩ : KbState).db.documents.filter (fun r => r.id = "b")) :=
  ⟨by decide, by decide,
    delete_document_frame "a" ⟨⟨[], []⟩, []⟩ ⟨"b", "n", "c", "x", none, none, "txt", "t"⟩
      "b" (by decide) (by decide)⟩
